import Mathlib

/-!
# SokhanNegar — verification of the transcription pipeline core

Shallow embedding of the repository's core logic:

* `usage_tracker.py` — the `UsageTracker` class (durable usage/cost ledger):
  `track_audio_duration`, `get_usage_stats`, `_format_stats`, `reset_usage`,
  `get_cost_warning`, `_read_data` / `_backup_corrupted_file`.
* `SokhanNegar.py` — the per-segment orchestration of
  `listen_continuously` / `process_audio_queue` / `parse_google_response`.
* `whisper_api.py` — `whisper_recognize` (energy/ZCR gate, paid API call,
  result validation, usage tracking).

Python floats are modelled as exact rationals (`ℚ`); the arithmetic in all
statements below is far from any binary-float rounding boundary.  Wall-clock
timestamp strings (`created_at` / `last_updated`) are outside the model: no
claim mentions them and no modelled operation branches on them.
-/

-- `Rat.add` / `Rat.mul` / `Rat.inv` / `Rat.sub` are `@[irreducible]` in
-- Batteries, which prevents `decide` from evaluating ground rational
-- arithmetic; make them unfold in this development.
attribute [local semireducible] Rat.mul Rat.add Rat.inv Rat.sub Rat.ofScientific

namespace SokhanNegar

/-! ## Association-list model of the JSON daily/weekly aggregate objects -/

/-- Python `dict.get(key, 0)` on a JSON object with rational values. -/
def getQ (m : List (String × ℚ)) (k : String) : ℚ :=
  match m.find? (fun p => p.1 == k) with
  | some p => p.2
  | none => 0

/-- Python `d[key] = v`: replace the binding if present, otherwise add it. -/
def setQ (m : List (String × ℚ)) (k : String) (v : ℚ) : List (String × ℚ) :=
  match m with
  | [] => [(k, v)]
  | p :: rest => if p.1 == k then (k, v) :: rest else p :: setQ rest k v

/-- Python `key in d`. -/
def hasKey (m : List (String × ℚ)) (k : String) : Bool :=
  (m.find? (fun p => p.1 == k)).isSome

/-- All values of the object are non-negative. -/
def mapsNonneg (m : List (String × ℚ)) : Prop :=
  ∀ p ∈ m, 0 ≤ p.2

instance (m : List (String × ℚ)) : Decidable (mapsNonneg m) :=
  List.decidableBAll _ m

/-! ## The persisted usage record -/

/-- The persisted JSON document of `usage_tracker.py` (timestamps omitted).

`failed_minutes_ghost` is a history (ghost) variable, not a field of the
stored JSON: it accumulates the minute-equivalents of the durations passed to
failed `track_audio_duration` calls, and is used only to state the spec's
invariant `total_minutes == successful_minutes + (minutes from failed
attempts)`.  It is reset together with the counters by `reset_usage("all")`
and untouched by the daily/weekly resets (which do not touch
`failed_attempts` either). -/
structure UsageData where
  total_minutes : ℚ
  successful_minutes : ℚ
  failed_attempts : ℕ
  daily_aggregate : List (String × ℚ)
  weekly_aggregate : List (String × ℚ)
  failed_minutes_ghost : ℚ
  deriving Repr, DecidableEq

/-- The default / freshly initialized record (`_initialize_storage`,
and the reinitialization branches of `_read_data`): all counters zero. -/
def defaultData : UsageData :=
  { total_minutes := 0
    successful_minutes := 0
    failed_attempts := 0
    daily_aggregate := []
    weekly_aggregate := []
    failed_minutes_ghost := 0 }

/-! ## Rounding and display formatting

Python's `round(x, 2)` and `f"{x:.2f}"` both round to the nearest
two-decimal value with ties to even. -/

/-- Round a rational to the nearest integer, ties to even
(Python / IEEE-754 `round`).  `Rat.floor` is used rather than `⌊·⌋` so that
the function evaluates inside the kernel; they agree (`Rat.floor_def`). -/
def roundHalfEven (q : ℚ) : ℤ :=
  let f := q.floor
  let r := q - (f : ℚ)
  if r < 1/2 then f
  else if 1/2 < r then f + 1
  else if f % 2 = 0 then f else f + 1

/-- Python `round(q, 2)`. -/
def round2 (q : ℚ) : ℚ := (roundHalfEven (q * 100) : ℚ) / 100

/-- ASCII digit character for `n < 10`. -/
def digitCh (n : ℕ) : Char := Char.ofNat (48 + n)

/-- Little-endian decimal digit characters, with explicit fuel (structural
recursion so that evaluation happens inside the kernel); `fuel > n`
always suffices. -/
def natDigitsRevAux : ℕ → ℕ → List Char
  | 0, _ => []
  | fuel + 1, n =>
    if n < 10 then [digitCh n]
    else digitCh (n % 10) :: natDigitsRevAux fuel (n / 10)

/-- Little-endian decimal digit characters of a natural number
(`natDigitsRev 0 = ['0']`). -/
def natDigitsRev (n : ℕ) : List Char := natDigitsRevAux (n + 1) n

/-- Big-endian decimal digit characters of a natural number. -/
def natDigits (n : ℕ) : List Char := (natDigitsRev n).reverse

/-- Two-digit zero-padded decimal rendering for `m < 100`. -/
def twoDigitsCh (m : ℕ) : List Char :=
  if m < 10 then '0' :: natDigits m else natDigits m

/-- Python `f"${q:.2f}"`: dollar sign, then the value rounded to cents in
standard decimal notation with exactly two fractional digits. -/
def fmtDollars (q : ℚ) : String :=
  let c := roundHalfEven (q * 100)
  String.mk ('$' :: (if c < 0 then ['-'] else []) ++
    natDigits (c.natAbs / 100) ++ '.' :: twoDigitsCh (c.natAbs % 100))

/-- Numeric value of an ASCII digit character. -/
def digitVal (c : Char) : ℕ := c.toNat - 48

/-- ASCII digit predicate. -/
def isDigitCh (c : Char) : Bool := 48 ≤ c.toNat && c.toNat ≤ 57

/-- Big-endian value of a digit-character list. -/
def valBE : List Char → ℕ
  | [] => 0
  | c :: t => digitVal c * 10 ^ t.length + valBE t

/-- Little-endian value of a digit-character list (specification-side
companion of `valBE`, used in the round-trip proofs). -/
def valRev : List Char → ℕ
  | [] => 0
  | c :: t => digitVal c + 10 * valRev t

/-- Parse a plain non-empty all-digit character list. -/
def parseNatCh (l : List Char) : Option ℕ :=
  if l ≠ [] ∧ l.all isDigitCh then some (valBE l) else none

/-- Split a character list at every occurrence of `sep`. -/
def splitOnCh (sep : Char) : List Char → List (List Char)
  | [] => [[]]
  | c :: t =>
    let r := splitOnCh sep t
    if c = sep then [] :: r
    else
      match r with
      | [] => [[c]]
      | h :: t2 => (c :: h) :: t2

/-- Parse a non-negative decimal character list, with at most one dot. -/
def parsePos (cs : List Char) : ℚ :=
  match splitOnCh '.' cs with
  | [a, b] =>
    match parseNatCh a, parseNatCh b with
    | some x, some y => (x : ℚ) + (y : ℚ) / ((10 : ℚ) ^ b.length)
    | _, _ => 0
  | [a] =>
    match parseNatCh a with
    | some x => (x : ℚ)
    | none => 0
  | _ => 0

/-- Python `float(s.replace("$", ""))` as `get_cost_warning` uses it: strip
the dollar sign and read the decimal value back.  (`str.replace` of the
single character `"$"` is removal of every `'$'`.) -/
def parseDollars (s : String) : ℚ :=
  let cs := s.data.filter (fun c => c ≠ '$')
  if cs.head? = some '-' then - parsePos cs.tail else parsePos cs

/-! ## `UsageTracker` operations

The day and week keys that the code derives from `datetime.now()` are passed
as explicit `String` parameters. -/

/-- `UsageTracker.COST_PER_MINUTE = 0.006`. -/
def COST_PER_MINUTE : ℚ := 6 / 1000

/-- The dictionary returned by `_format_stats` (timestamp fields omitted). -/
structure Stats where
  total_minutes : ℚ
  estimated_cost : String
  successful_minutes : ℚ
  failed_attempts : ℕ
  daily_minutes : ℚ
  weekly_minutes : ℚ
  deriving Repr, DecidableEq

/-- `UsageTracker._format_stats(data)`. -/
def format_stats (dayKey weekKey : String) (data : UsageData) : Stats :=
  { total_minutes := round2 data.total_minutes
    estimated_cost := fmtDollars (data.total_minutes * COST_PER_MINUTE)
    successful_minutes := round2 data.successful_minutes
    failed_attempts := data.failed_attempts
    daily_minutes := round2 (getQ data.daily_aggregate dayKey)
    weekly_minutes := round2 (getQ data.weekly_aggregate weekKey) }

/-- `UsageTracker.get_usage_stats()`: reads the record and formats it;
no mutation. -/
def get_usage_stats (dayKey weekKey : String) (data : UsageData) : Stats :=
  format_stats dayKey weekKey data

/-- `UsageTracker.track_audio_duration(duration_seconds, success)`:
returns the new persisted record together with the returned stats dict.
For `duration_seconds <= 0` the code returns `self.get_usage_stats()`
without taking the lock or touching the record. -/
def track_audio_duration (duration_seconds : ℚ) (success : Bool)
    (dayKey weekKey : String) (data : UsageData) : UsageData × Stats :=
  if duration_seconds ≤ 0 then
    (data, get_usage_stats dayKey weekKey data)
  else
    let duration_minutes := duration_seconds / 60
    let data1 := { data with
      total_minutes := data.total_minutes + duration_minutes }
    let data2 :=
      if success then
        { data1 with
          successful_minutes := data1.successful_minutes + duration_minutes }
      else
        { data1 with
          failed_attempts := data1.failed_attempts + 1
          failed_minutes_ghost := data1.failed_minutes_ghost + duration_minutes }
    let data3 := { data2 with
      daily_aggregate :=
        setQ data2.daily_aggregate dayKey
          (getQ data2.daily_aggregate dayKey + duration_minutes)
      weekly_aggregate :=
        setQ data2.weekly_aggregate weekKey
          (getQ data2.weekly_aggregate weekKey + duration_minutes) }
    (data3, format_stats dayKey weekKey data3)

/-- `UsageTracker.reset_usage("daily")`. -/
def reset_daily (dayKey : String) (data : UsageData) : UsageData :=
  if hasKey data.daily_aggregate dayKey then
    { data with
      total_minutes := data.total_minutes - getQ data.daily_aggregate dayKey
      daily_aggregate := setQ data.daily_aggregate dayKey 0 }
  else data

/-- `UsageTracker.reset_usage("weekly")`. -/
def reset_weekly (weekKey : String) (data : UsageData) : UsageData :=
  if hasKey data.weekly_aggregate weekKey then
    { data with
      total_minutes := data.total_minutes - getQ data.weekly_aggregate weekKey
      weekly_aggregate := setQ data.weekly_aggregate weekKey 0 }
  else data

/-- `UsageTracker.reset_usage("all")`. -/
def reset_all (data : UsageData) : UsageData :=
  { data with
    total_minutes := 0
    successful_minutes := 0
    failed_attempts := 0
    daily_aggregate := []
    weekly_aggregate := []
    failed_minutes_ghost := 0 }

/-- `UsageTracker.get_cost_warning(threshold_cost)`: the code formats the
stats, then parses the displayed cost string back
(`float(cost_str.replace("$", ""))`) and compares that parsed value with the
threshold. -/
def get_cost_warning (threshold_cost : ℚ) (dayKey weekKey : String)
    (data : UsageData) : Bool × ℚ × ℚ :=
  let stats := get_usage_stats dayKey weekKey data
  let current_cost := parseDollars stats.estimated_cost
  (current_cost > threshold_cost, current_cost, threshold_cost)

/-- The spec's `UsageRecord` invariant: `total_minutes` equals
`successful_minutes` plus the minutes from failed attempts (the ghost
accumulator), `total_minutes >= successful_minutes >= 0`, and the daily and
weekly aggregate maps never contain negative values. -/
def UsageInv (data : UsageData) : Prop :=
  data.total_minutes = data.successful_minutes + data.failed_minutes_ghost ∧
  0 ≤ data.successful_minutes ∧
  data.successful_minutes ≤ data.total_minutes ∧
  mapsNonneg data.daily_aggregate ∧
  mapsNonneg data.weekly_aggregate

instance (data : UsageData) : Decidable (UsageInv data) := by
  unfold UsageInv
  infer_instance

/-! ## Storage loading and corruption recovery (`_read_data`) -/

/-- Raw bytes of the storage file: either a serialized record
(`json.load` succeeds) or unparseable content (`json.load` raises
`JSONDecodeError`). -/
inductive RawFile where
  | json (d : UsageData)
  | garbage (s : String)
  deriving Repr, DecidableEq

/-- `json.load`, as the code observes it. -/
def parseJson : RawFile → Option UsageData
  | .json d => some d
  | .garbage _ => none

/-- A storage slot on disk. -/
inductive StorageFile where
  | missing
  | present (raw : RawFile)
  deriving Repr, DecidableEq

/-- The part of the filesystem `_read_data` touches: the storage path and
the timestamped backup slot written by `_backup_corrupted_file`. -/
structure LedgerFS where
  storage : StorageFile
  backup : Option RawFile
  deriving Repr, DecidableEq

/-- `UsageTracker._read_data()`: returns the loaded record and the resulting
filesystem.  The `Except` layer records whether an exception escapes the
call; every branch of the Python function returns normally (missing file →
create defaults; `JSONDecodeError` → rename the corrupted file aside as a
timestamped backup, reinitialize defaults, persist them). -/
def read_data (fs : LedgerFS) : Except String (UsageData × LedgerFS) :=
  match fs.storage with
  | .missing =>
    .ok (defaultData,
      { storage := .present (.json defaultData), backup := fs.backup })
  | .present raw =>
    match parseJson raw with
    | some d => .ok (d, fs)
    | none =>
      .ok (defaultData,
        { storage := .present (.json defaultData), backup := some raw })

/-! ## The per-segment pipeline (`SokhanNegar.py` and `whisper_api.py`)

A captured segment is a list of signed 16-bit samples (`listen_continuously`
records 5 s of int16 mono at 16 kHz and queues ALL of it — the computed RMS
energy is logged but not used for gating).  `numpy`'s RMS comparison
`sqrt(mean(x^2)) < c` is modelled without square roots as
`sum(x^2) < c^2 * n` (equivalent for `c ≥ 0`; for the empty buffer numpy
yields `nan`, every comparison with which is false, matching `0 < 0`). -/

/-- Sum of squared samples. -/
def sumSq (xs : List ℤ) : ℤ := (xs.map (fun x => x * x)).sum

/-- `rms_energy < c` for an int16 buffer (c ≥ 0), via squares. -/
def rmsLt (xs : List ℤ) (c : ℚ) : Bool :=
  decide ((sumSq xs : ℚ) < c ^ 2 * xs.length)

/-- Numerator of numpy's zero-crossing count:
`np.sum(np.abs(np.diff(np.sign(x))))`. -/
def zeroCrossSum (xs : List ℤ) : ℤ :=
  match xs with
  | [] => 0
  | _ :: tail => ((xs.zip tail).map (fun p => |Int.sign p.2 - Int.sign p.1|)).sum

/-- `zero_crossings > c` where
`zero_crossings = zeroCrossSum / (2 * len(x))`; for the empty buffer numpy
yields `nan` (`0/0`), every comparison with which is false, matching
`0 > 0`. -/
def zcrGt (xs : List ℤ) (c : ℚ) : Bool :=
  decide ((zeroCrossSum xs : ℚ) > c * (2 * xs.length))

/-- `whisper_api.py`: duration computed from the frame buffer —
`len(frame_data) / sample_width / sample_rate` with `sample_width = 2`,
`sample_rate = 16000`, so `len(xs) / 16000` seconds. -/
def durationSeconds (xs : List ℤ) : ℚ := (xs.length : ℚ) / 16000

/-- Python `str.strip()`: remove leading and trailing whitespace. -/
def pyStrip (s : String) : String :=
  String.mk
    (((s.data.dropWhile Char.isWhitespace).reverse.dropWhile
      Char.isWhitespace).reverse)

/-- A Unicode code point in the Arabic block `'؀'..'ۿ'`
(the Persian-character test of `whisper_recognize`). -/
def isPersianChar (c : Char) : Bool :=
  0x600 ≤ c.toNat && c.toNat ≤ 0x6FF

/-- Python `str.isalpha()` on the characters occurring here: Latin letters
plus the Arabic block (letters of other scripts do not occur in any
statement below). -/
def isAlphaPy (c : Char) : Bool := c.isAlpha || isPersianChar c

/-- Result of the underlying OpenAI transcription call inside
`whisper_recognize` (returned text, or the typed exception it raises). -/
inductive WhisperApiResult where
  | ok (text : String)
  | authError
  | rateLimitError
  | apiError
  | socketTimeout
  | connectionError
  deriving Repr, DecidableEq

/-- The typed outcomes of `whisper_recognize`: a returned transcript, or the
class of exception that propagates to the caller. -/
inductive WhisperOutcome where
  | ok (text : String)
  /-- `ValueError` raised by the pre-call gate (silence / route-to-Google /
  noise) or by the post-call validation (too short / gibberish / too few
  distinct characters): the caller sees `ValueError` either way. -/
  | valueError
  | authError
  | rateLimitError
  | apiError
  | socketTimeout
  | connectionError
  deriving Repr, DecidableEq

/-- Observable effects of one `whisper_recognize` call. -/
structure WhisperEffects where
  outcome : WhisperOutcome
  /-- whether the paid OpenAI API call was issued -/
  apiCalled : Bool
  /-- arguments of the `tracker.track_audio_duration` calls made -/
  trackCalls : List (ℚ × Bool)
  deriving Repr, DecidableEq

/-- `whisper_api.whisper_recognize(audio_data)`.

Control flow of the source: the energy/ZCR gate raises `ValueError` from the
re-raise in the first `try`'s handler, *before* the second `try` begins — so
a gate rejection issues no API call and no tracking.  Exceptions raised
inside the second `try` (API errors, and the post-call validation
`ValueError`s) are each tracked as one failed attempt before re-raising;
a validated transcript is tracked as success.  An empty stripped transcript
skips validation and is tracked as success. -/
def whisper_recognize (xs : List ℤ) (api : WhisperApiResult) : WhisperEffects :=
  let d := durationSeconds xs
  if rmsLt xs 300 then
    { outcome := .valueError, apiCalled := false, trackCalls := [] }
  else if rmsLt xs 500 then
    { outcome := .valueError, apiCalled := false, trackCalls := [] }
  else if zcrGt xs (3/10) then
    { outcome := .valueError, apiCalled := false, trackCalls := [] }
  else
    match api with
    | .ok t =>
      let text := pyStrip t
      if text ≠ "" then
        if text.length < 2 then
          { outcome := .valueError, apiCalled := true, trackCalls := [(d, false)] }
        else
          let persian := (text.data.filter isPersianChar).length
          let alpha := (text.data.filter isAlphaPy).length
          if alpha > 0 ∧ (persian : ℚ) / alpha < 1/2 then
            { outcome := .valueError, apiCalled := true, trackCalls := [(d, false)] }
          else if text.length ≤ 10 ∧
              ((text.data.filter (fun c => c ≠ ' ')).dedup).length ≤ 3 then
            { outcome := .valueError, apiCalled := true, trackCalls := [(d, false)] }
          else
            { outcome := .ok text, apiCalled := true, trackCalls := [(d, true)] }
      else
        { outcome := .ok text, apiCalled := true, trackCalls := [(d, true)] }
    | .authError =>
      { outcome := .authError, apiCalled := true, trackCalls := [(d, false)] }
    | .rateLimitError =>
      { outcome := .rateLimitError, apiCalled := true, trackCalls := [(d, false)] }
    | .apiError =>
      { outcome := .apiError, apiCalled := true, trackCalls := [(d, false)] }
    | .socketTimeout =>
      { outcome := .socketTimeout, apiCalled := true, trackCalls := [(d, false)] }
    | .connectionError =>
      { outcome := .connectionError, apiCalled := true, trackCalls := [(d, false)] }

/-! ## `parse_google_response` and `process_audio_queue` -/

/-- One entry of the alternatives list returned by `recognize_google` with
`show_all=True`: a JSON object that may or may not carry `'transcript'`
and `'confidence'` keys. -/
structure GoogleAlt where
  transcript : Option String
  confidence : Option ℚ
  deriving Repr, DecidableEq

/-- The value `recognize_google(show_all=True)` returns when it does not
raise: a list of alternatives, or some other shape (`isinstance(response,
list)` false — e.g. the empty dict the library yields for no result). -/
inductive GoogleResponse where
  | list (alts : List GoogleAlt)
  | nonList
  deriving Repr, DecidableEq

/-- Outcome of the `recognize_google` call as `process_audio_queue`
observes it. -/
inductive GoogleOutcome where
  | response (r : GoogleResponse)
  /-- `sr.UnknownValueError` -/
  | unknownValue
  /-- `sr.RequestError` -/
  | requestError
  deriving Repr, DecidableEq

/-- `SokhanNegarLive.parse_google_response(response)`: best alternative's
transcript (default `''`), and its confidence clamped to `[0,1]` — or the
fixed default `0.5` when the alternative carries no confidence; `('', 0.0)`
for an empty or non-list response. -/
def parse_google_response (response : GoogleResponse) : String × ℚ :=
  match response with
  | .list (best :: _) =>
    let text := best.transcript.getD ""
    let confidence :=
      match best.confidence with
      | some c => max 0 (min 1 c)
      | none => 1/2
    (text, confidence)
  | .list [] => ("", 0)
  | .nonList => ("", 0)

/-- Observable effects of processing one dequeued segment in
`process_audio_queue`. -/
structure SegmentEffects where
  /-- number of `recognize_google` calls for this segment -/
  googleCalls : ℕ
  /-- number of `whisper_recognize` calls for this segment -/
  whisperCalls : ℕ
  /-- number of paid OpenAI API calls for this segment -/
  whisperApiCalls : ℕ
  /-- arguments of the ledger (`track_audio_duration`) calls made -/
  trackCalls : List (ℚ × Bool)
  /-- the transcript segment handed to `add_text`: text and the optional
  confidence (the value of `locals().get('confidence', None)` at line 412),
  or `none` when no segment is appended -/
  appended : Option (String × Option ℚ)
  deriving Repr, DecidableEq

/-- One iteration of `SokhanNegarLive.process_audio_queue` on a dequeued
segment `xs`.

`process_audio_queue` is a single long-running loop: `text` and
`service_used` are re-initialized to `None` at the top of every iteration,
but the local variable `confidence` is not — it is bound only by the
Google-response branch (`text, confidence = self.parse_google_response(...)`)
and by `confidence = locals().get('confidence', None)` in the append block,
and therefore persists across iterations.  `confidence0` is that
loop-carried local on entry to the iteration (`none` covers both
never-bound and bound-to-`None`, which `locals().get` cannot
distinguish); the second component of the result is the local's value
after the iteration, to be fed into the next one.

`recognize_google` is always attempted first; only when it raises
(`UnknownValueError` / `RequestError`) — leaving `text` as `None` — is
`whisper_recognize` attempted; a parsed empty string is not `None`, so it
does not trigger the fallback.  Text is appended only if non-empty after
stripping; the confidence handed along is the freshly parsed Google
confidence on the Google branch, and on the Whisper branch the *stale*
loop-carried value retrieved by `locals().get('confidence', None)`. -/
def process_segment (confidence0 : Option ℚ) (xs : List ℤ)
    (g : GoogleOutcome) (api : WhisperApiResult) :
    SegmentEffects × Option ℚ :=
  match g with
  | .response r =>
    let parsed := parse_google_response r
    let text := parsed.1
    -- line 357 binds the `confidence` local on every returned response
    let confidence := some parsed.2
    -- `text is None` is false, so no fallback; append iff `text.strip()` truthy
    if text ≠ "" ∧ pyStrip text ≠ "" then
      ({ googleCalls := 1, whisperCalls := 0, whisperApiCalls := 0,
         trackCalls := [], appended := some (text, confidence) }, confidence)
    else
      ({ googleCalls := 1, whisperCalls := 0, whisperApiCalls := 0,
         trackCalls := [], appended := none }, confidence)
  | .unknownValue | .requestError =>
    let w := whisper_recognize xs api
    match w.outcome with
    | .ok t =>
      if t ≠ "" ∧ pyStrip t ≠ "" then
        -- `confidence = locals().get('confidence', None)`: the stale
        -- loop-carried value, re-bound to itself
        ({ googleCalls := 1, whisperCalls := 1,
           whisperApiCalls := if w.apiCalled then 1 else 0,
           trackCalls := w.trackCalls, appended := some (t, confidence0) },
         confidence0)
      else
        ({ googleCalls := 1, whisperCalls := 1,
           whisperApiCalls := if w.apiCalled then 1 else 0,
           trackCalls := w.trackCalls, appended := none }, confidence0)
    | _ =>
      -- every exception class is caught and `continue`d: nothing appended
      ({ googleCalls := 1, whisperCalls := 1,
         whisperApiCalls := if w.apiCalled then 1 else 0,
         trackCalls := w.trackCalls, appended := none }, confidence0)

/-! ## Helper lemmas -/

theorem getQ_nonneg (m : List (String × ℚ)) (k : String)
    (h : mapsNonneg m) : 0 ≤ getQ m k := by
  unfold getQ
  split
  · next p hp => exact h p (List.mem_of_find?_eq_some hp)
  · exact le_refl 0

theorem mapsNonneg_setQ (m : List (String × ℚ)) (k : String) (v : ℚ)
    (h : mapsNonneg m) (hv : 0 ≤ v) : mapsNonneg (setQ m k v) := by
  induction m with
  | nil =>
    intro p hp
    simp only [setQ, List.mem_singleton] at hp
    simp [hp, hv]
  | cons head tail ih =>
    intro p hp
    simp only [setQ] at hp
    split at hp
    · rcases List.mem_cons.mp hp with h1 | h2
      · simp [h1, hv]
      · exact h p (List.mem_cons_of_mem _ h2)
    · rcases List.mem_cons.mp hp with h1 | h2
      · exact h p (h1 ▸ List.mem_cons_self _ _)
      · exact ih (fun q hq => h q (List.mem_cons_of_mem _ hq)) p h2

/-- The fields of the record produced by a positive-duration
`track_audio_duration` call. -/
theorem track_fields (d : ℚ) (s : Bool) (dk wk : String) (data : UsageData)
    (hd : 0 < d) :
    (track_audio_duration d s dk wk data).1 =
      { total_minutes := data.total_minutes + d / 60
        successful_minutes :=
          data.successful_minutes + (if s then d / 60 else 0)
        failed_attempts := data.failed_attempts + (if s then 0 else 1)
        daily_aggregate :=
          setQ data.daily_aggregate dk (getQ data.daily_aggregate dk + d / 60)
        weekly_aggregate :=
          setQ data.weekly_aggregate wk (getQ data.weekly_aggregate wk + d / 60)
        failed_minutes_ghost :=
          data.failed_minutes_ghost + (if s then 0 else d / 60) } := by
  unfold track_audio_duration
  rw [if_neg (not_le.mpr hd)]
  cases s <;> simp

theorem digitCh_spec (k : ℕ) (hk : k < 10) :
    digitVal (digitCh k) = k ∧ isDigitCh (digitCh k) = true ∧
    digitCh k ≠ '.' ∧ digitCh k ≠ '$' ∧ digitCh k ≠ '-' := by
  interval_cases k <;> exact ⟨rfl, rfl, by decide, by decide, by decide⟩

theorem natDigitsRevAux_spec (fuel : ℕ) :
    ∀ n : ℕ, n < fuel →
      valRev (natDigitsRevAux fuel n) = n ∧
      natDigitsRevAux fuel n ≠ [] ∧
      ∀ c ∈ natDigitsRevAux fuel n, ∃ k, k < 10 ∧ c = digitCh k := by
  induction fuel with
  | zero => intro n hn; omega
  | succ f ih =>
    intro n hn
    by_cases h10 : n < 10
    · refine ⟨?_, ?_, ?_⟩
      · simp [natDigitsRevAux, h10, valRev, (digitCh_spec n h10).1]
      · simp [natDigitsRevAux, h10]
      · simp only [natDigitsRevAux, if_pos h10, List.mem_singleton]
        intro c hc
        exact ⟨n, h10, hc⟩
    · have hdiv : n / 10 < f := by
        have := Nat.div_lt_self (show 0 < n by omega) (show 1 < 10 by omega)
        omega
      obtain ⟨ihv, _, ihm⟩ := ih (n / 10) hdiv
      refine ⟨?_, ?_, ?_⟩
      · have hmod : n % 10 < 10 := Nat.mod_lt _ (by omega)
        simp only [natDigitsRevAux, if_neg h10, valRev,
          (digitCh_spec _ hmod).1, ihv]
        omega
      · simp [natDigitsRevAux, h10]
      · simp only [natDigitsRevAux, if_neg h10, List.mem_cons]
        rintro c (rfl | hc)
        · exact ⟨n % 10, Nat.mod_lt _ (by omega), rfl⟩
        · exact ihm c hc

theorem natDigitsRev_spec (n : ℕ) :
    valRev (natDigitsRev n) = n ∧ natDigitsRev n ≠ [] ∧
    ∀ c ∈ natDigitsRev n, ∃ k, k < 10 ∧ c = digitCh k :=
  natDigitsRevAux_spec (n + 1) n (by omega)

theorem valBE_append (l : List Char) (c : Char) :
    valBE (l ++ [c]) = 10 * valBE l + digitVal c := by
  induction l with
  | nil => simp [valBE]
  | cons d t ih =>
    simp only [List.cons_append, valBE, ih, List.append_eq,
      List.length_append, List.length_cons, List.length_nil, pow_succ,
      pow_zero]
    ring

theorem valBE_reverse (l : List Char) : valBE l.reverse = valRev l := by
  induction l with
  | nil => rfl
  | cons c t ih =>
    simp only [List.reverse_cons, valBE_append, ih, valRev]
    ring

theorem natDigits_spec (n : ℕ) :
    parseNatCh (natDigits n) = some n ∧
    ∀ c ∈ natDigits n, isDigitCh c = true ∧ c ≠ '.' ∧ c ≠ '$' ∧ c ≠ '-' := by
  obtain ⟨hv, hne, hm⟩ := natDigitsRev_spec n
  have hmem : ∀ c ∈ natDigits n,
      isDigitCh c = true ∧ c ≠ '.' ∧ c ≠ '$' ∧ c ≠ '-' := by
    intro c hc
    obtain ⟨k, hk, rfl⟩ := hm c (List.mem_reverse.mp hc)
    obtain ⟨_, h1, h2, h3, h4⟩ := digitCh_spec k hk
    exact ⟨h1, h2, h3, h4⟩
  refine ⟨?_, hmem⟩
  unfold parseNatCh
  rw [if_pos]
  · rw [natDigits, valBE_reverse, hv]
  · refine ⟨by simpa [natDigits] using hne, ?_⟩
    exact List.all_eq_true.mpr (fun c hc => (hmem c hc).1)

theorem twoDigitsCh_spec (m : ℕ) (hm : m < 100) :
    parseNatCh (twoDigitsCh m) = some m ∧ (twoDigitsCh m).length = 2 ∧
    ∀ c ∈ twoDigitsCh m, isDigitCh c = true ∧ c ≠ '.' ∧ c ≠ '$' := by
  obtain ⟨hv, hne, hmem⟩ := natDigitsRev_spec m
  by_cases h10 : m < 10
  · have hone : natDigitsRev m = [digitCh m] := by
      simp [natDigitsRev, natDigitsRevAux, h10]
    have h2 : twoDigitsCh m = ['0', digitCh m] := by
      simp [twoDigitsCh, h10, natDigits, hone]
    obtain ⟨hd0, hd1, hd2, hd3, _⟩ := digitCh_spec m h10
    refine ⟨?_, by simp [h2], ?_⟩
    · rw [h2]
      unfold parseNatCh
      rw [if_pos]
      · simp only [valBE, List.length_cons, List.length_nil,
          Option.some.injEq]
        rw [show digitVal '0' = 0 from rfl, hd0]
        norm_num
      · refine ⟨by simp, ?_⟩
        simp [List.all_eq_true, hd1]
        decide
    · rw [h2]
      intro c hc
      simp only [List.mem_cons, List.mem_singleton,
        List.not_mem_nil, or_false] at hc
      rcases hc with rfl | rfl
      · exact ⟨by decide, by decide, by decide⟩
      · exact ⟨hd1, hd2, hd3⟩
  · have hone : natDigitsRevAux m (m / 10) = [digitCh (m / 10)] := by
      have hdlt : m / 10 < 10 := by omega
      have hpos : 0 < m := by omega
      cases m with
      | zero => omega
      | succ m1 => simp [natDigitsRevAux, hdlt]
    have hrev : natDigitsRev m = [digitCh (m % 10), digitCh (m / 10)] := by
      simp [natDigitsRev, natDigitsRevAux, h10]
      have : m / 10 < m := by
        have := Nat.div_lt_self (show 0 < m by omega) (show 1 < 10 by omega)
        omega
      -- `natDigitsRevAux (m + 1 - 1) (m / 10)` after one unfolding step
      exact hone
    have h2 : twoDigitsCh m = [digitCh (m / 10), digitCh (m % 10)] := by
      simp [twoDigitsCh, h10, natDigits, hrev]
    have hdlt : m / 10 < 10 := by omega
    have hmlt : m % 10 < 10 := by omega
    obtain ⟨ha0, ha1, ha2, ha3, _⟩ := digitCh_spec _ hdlt
    obtain ⟨hb0, hb1, hb2, hb3, _⟩ := digitCh_spec _ hmlt
    refine ⟨?_, by simp [h2], ?_⟩
    · rw [h2]
      unfold parseNatCh
      rw [if_pos]
      · simp only [valBE, List.length_cons, List.length_nil,
          Option.some.injEq]
        rw [ha0, hb0]
        have : m / 10 * 10 + m % 10 = m := by omega
        norm_num
        omega
      · refine ⟨by simp, ?_⟩
        simp [List.all_eq_true, ha1, hb1]
    · rw [h2]
      intro c hc
      simp only [List.mem_cons, List.mem_singleton,
        List.not_mem_nil, or_false] at hc
      rcases hc with rfl | rfl
      · exact ⟨ha1, ha2, ha3⟩
      · exact ⟨hb1, hb2, hb3⟩

theorem splitOnCh_no_sep (sep : Char) (l : List Char)
    (h : ∀ c ∈ l, c ≠ sep) : splitOnCh sep l = [l] := by
  induction l with
  | nil => rfl
  | cons c t ih =>
    have hc : c ≠ sep := h c (List.mem_cons_self _ _)
    have ht := ih (fun d hd => h d (List.mem_cons_of_mem _ hd))
    simp [splitOnCh, hc, ht]

theorem splitOnCh_append (sep : Char) (A B : List Char)
    (hA : ∀ c ∈ A, c ≠ sep) :
    splitOnCh sep (A ++ sep :: B) = A :: splitOnCh sep B := by
  induction A with
  | nil => simp [splitOnCh]
  | cons a A' ih =>
    have ha : a ≠ sep := hA a (List.mem_cons_self _ _)
    have hr := ih (fun d hd => hA d (List.mem_cons_of_mem _ hd))
    simp [splitOnCh, ha, hr]

theorem roundHalfEven_nonneg (q : ℚ) (h : 0 ≤ q) : 0 ≤ roundHalfEven q := by
  have hf : 0 ≤ q.floor := Rat.le_floor.mpr (by exact_mod_cast h)
  simp only [roundHalfEven]
  split_ifs <;> omega

/-- The central round-trip fact behind `get_cost_warning`: parsing the
two-decimal display string produced by `fmtDollars` recovers exactly the
cost rounded to two decimal places. -/
theorem parseDollars_fmtDollars (q : ℚ) (h : 0 ≤ q) :
    parseDollars (fmtDollars q) = round2 q := by
  have hc : 0 ≤ roundHalfEven (q * 100) :=
    roundHalfEven_nonneg _ (by positivity)
  obtain ⟨hApar, hAmem⟩ := natDigits_spec ((roundHalfEven (q * 100)).natAbs / 100)
  obtain ⟨hBpar, hBlen, hBmem⟩ :=
    twoDigitsCh_spec ((roundHalfEven (q * 100)).natAbs % 100)
      (Nat.mod_lt _ (by omega))
  set c := roundHalfEven (q * 100) with hcdef
  set A := natDigits (c.natAbs / 100) with hAdef
  set B := twoDigitsCh (c.natAbs % 100) with hBdef
  have hfmt : (fmtDollars q).data = '$' :: (A ++ '.' :: B) := by
    simp [fmtDollars, ← hcdef, if_neg (not_lt.mpr hc)]
  have hfilter : ((fmtDollars q).data.filter (fun ch => ch ≠ '$')) =
      A ++ '.' :: B := by
    rw [hfmt]
    rw [List.filter_cons_of_neg (by simp)]
    rw [List.filter_eq_self.mpr]
    intro ch hch
    rcases List.mem_append.mp hch with hch | hch
    · simpa using (hAmem ch hch).2.2.1
    · rcases List.mem_cons.mp hch with rfl | hch
      · simp
      · simpa using (hBmem ch hch).2.2
  have hAne : A ≠ [] := by
    intro hAe
    rw [hAdef, natDigits] at hAe
    exact (natDigitsRev_spec _).2.1 (by simpa using hAe)
  obtain ⟨a0, A', hA⟩ := List.exists_cons_of_ne_nil hAne
  have hhead : (A ++ '.' :: B).head? = some a0 := by
    rw [hA]
    rfl
  have ha0 : a0 ≠ '-' :=
    (hAmem a0 (by rw [hA]; exact List.mem_cons_self _ _)).2.2.2
  have hsplit : splitOnCh '.' (A ++ '.' :: B) = A :: splitOnCh '.' B := by
    refine splitOnCh_append '.' A B ?_
    intro ch hch
    exact (hAmem ch hch).2.1
  have hsplitB : splitOnCh '.' B = [B] := by
    refine splitOnCh_no_sep '.' B ?_
    intro ch hch
    exact (hBmem ch hch).2.1
  unfold parseDollars
  rw [hfilter]
  rw [if_neg (by rw [hhead]; simp [ha0])]
  unfold parsePos
  rw [hsplit, hsplitB]
  simp only [hApar, hBpar, hBlen]
  have hq : (100 : ℚ) * ((c.natAbs / 100 : ℕ) : ℚ) + ((c.natAbs % 100 : ℕ) : ℚ) =
      ((c.natAbs : ℕ) : ℚ) := by
    exact_mod_cast Nat.div_add_mod c.natAbs 100
  have hcast : ((c.natAbs : ℕ) : ℚ) = (c : ℚ) := by
    rw [Int.cast_natAbs, abs_of_nonneg (by exact_mod_cast hc)]
  rw [round2, ← hcdef, ← hcast]
  rw [← hq]
  ring

/-! ## Claims -/

/-- C3: for every duration `d > 0`, a `track_audio_duration` call increases
`total_minutes` by exactly `d/60`; if `success` is true,
`successful_minutes` increases by the same amount and the failed-attempt
counter is unchanged; if `success` is false, `successful_minutes` is
unchanged and the failed-attempt counter increases by 1.  (Floats are
modelled as exact rationals, so "within floating tolerance" is exact.) -/
theorem C3_record_usage_delta (d : ℚ) (s : Bool) (dk wk : String)
    (data : UsageData) (hd : 0 < d) :
    (track_audio_duration d s dk wk data).1.total_minutes =
      data.total_minutes + d / 60 ∧
    (s = true →
      (track_audio_duration d s dk wk data).1.successful_minutes =
        data.successful_minutes + d / 60 ∧
      (track_audio_duration d s dk wk data).1.failed_attempts =
        data.failed_attempts) ∧
    (s = false →
      (track_audio_duration d s dk wk data).1.successful_minutes =
        data.successful_minutes ∧
      (track_audio_duration d s dk wk data).1.failed_attempts =
        data.failed_attempts + 1) := by
  rw [track_fields d s dk wk data hd]
  cases s <;> simp

/-- C3 witness: concrete instantiation at `d = 60`, `success = true`. -/
theorem C3_record_usage_delta_witness :
    (track_audio_duration 60 true "2026-10-12" "2026-W41" defaultData).1.total_minutes =
      defaultData.total_minutes + 60 / 60 :=
  (C3_record_usage_delta 60 true "2026-10-12" "2026-W41" defaultData
    (by norm_num)).1

/-- C4: for every duration `d ≤ 0` and either success flag,
`track_audio_duration` is a no-op: the record is unchanged and the call
returns the current formatted snapshot (as a total Lean function it cannot
raise; the modelled branch returns before taking the lock). -/
theorem C4_nonpositive_noop (d : ℚ) (s : Bool) (dk wk : String)
    (data : UsageData) (hd : d ≤ 0) :
    track_audio_duration d s dk wk data =
      (data, get_usage_stats dk wk data) := by
  unfold track_audio_duration
  rw [if_pos hd]

/-- C4 witness: concrete instantiation at `d = 0`. -/
theorem C4_nonpositive_noop_witness :
    track_audio_duration 0 false "2026-10-12" "2026-W41" defaultData =
      (defaultData, get_usage_stats "2026-10-12" "2026-W41" defaultData) :=
  C4_nonpositive_noop 0 false "2026-10-12" "2026-W41" defaultData le_rfl

/-- C1 counterexample: the claim that *every* ledger operation preserves the
`UsageRecord` invariant is false.  Starting from the zeroed record, one
successful 60-second `track_audio_duration` call establishes the invariant,
but `reset_usage("daily")` then subtracts the day's minutes from
`total_minutes` while leaving `successful_minutes` untouched, violating
`total_minutes >= successful_minutes` (the record ends with
`total_minutes = 0 < 1 = successful_minutes`). -/
theorem C1_counterexample :
    UsageInv (track_audio_duration 60 true "2026-10-12" "2026-W41"
      defaultData).1 ∧
    ¬ UsageInv (reset_daily "2026-10-12"
      (track_audio_duration 60 true "2026-10-12" "2026-W41" defaultData).1) := by
  decide

/-- C1 amended: `track_audio_duration` (any duration, either flag) and
`reset_usage("all")` preserve the full `UsageRecord` invariant, and snapshot
reads are pure; the daily and weekly resets preserve only the
non-negativity of the aggregate maps (they write `0.0` into the reset key),
while subtracting the period's minutes from `total_minutes` without
adjusting `successful_minutes`, so they need not preserve
`total_minutes >= successful_minutes`. -/
theorem C1_invariant_amended :
    (∀ (d : ℚ) (s : Bool) (dk wk : String) (data : UsageData),
      UsageInv data → UsageInv (track_audio_duration d s dk wk data).1) ∧
    (∀ data : UsageData, UsageInv data → UsageInv (reset_all data)) ∧
    (∀ (dk : String) (data : UsageData),
      mapsNonneg data.daily_aggregate →
        mapsNonneg (reset_daily dk data).daily_aggregate ∧
        (reset_daily dk data).weekly_aggregate = data.weekly_aggregate) ∧
    (∀ (wk : String) (data : UsageData),
      mapsNonneg data.weekly_aggregate →
        mapsNonneg (reset_weekly wk data).weekly_aggregate ∧
        (reset_weekly wk data).daily_aggregate = data.daily_aggregate) := by
  refine ⟨?_, ?_, ?_, ?_⟩
  · intro d s dk wk data hInv
    rcases hInv with ⟨hEq, hS, hST, hDay, hWeek⟩
    by_cases hd : d ≤ 0
    · unfold track_audio_duration
      rw [if_pos hd]
      exact ⟨hEq, hS, hST, hDay, hWeek⟩
    · have hd' : 0 < d := not_le.mp hd
      have hdm : 0 < d / 60 := by positivity
      rw [track_fields d s dk wk data hd']
      refine ⟨?_, ?_, ?_, ?_, ?_⟩
      · cases s <;> simp <;> linarith
      · cases s <;> simp <;> linarith
      · cases s <;> simp <;> linarith
      · exact mapsNonneg_setQ _ _ _ hDay
          (by have := getQ_nonneg data.daily_aggregate dk hDay; linarith)
      · exact mapsNonneg_setQ _ _ _ hWeek
          (by have := getQ_nonneg data.weekly_aggregate wk hWeek; linarith)
  · intro data _
    refine ⟨by simp [reset_all], by simp [reset_all], by simp [reset_all],
      ?_, ?_⟩ <;> simp [reset_all, mapsNonneg]
  · intro dk data hDay
    unfold reset_daily
    split
    · exact ⟨mapsNonneg_setQ _ _ _ hDay le_rfl, rfl⟩
    · exact ⟨hDay, rfl⟩
  · intro wk data hWeek
    unfold reset_weekly
    split
    · exact ⟨mapsNonneg_setQ _ _ _ hWeek le_rfl, rfl⟩
    · exact ⟨hWeek, rfl⟩

/-- C1 witness: the amended preservation applied at a concrete record. -/
theorem C1_invariant_amended_witness :
    UsageInv (track_audio_duration 42 false "2026-10-12" "2026-W41"
      defaultData).1 :=
  C1_invariant_amended.1 42 false "2026-10-12" "2026-W41" defaultData
    (by decide)

/-- Sequential application of `n` successful 60-second
`track_audio_duration` calls adds `n` minutes. -/
theorem track_iterate_total (dk wk : String) (n : ℕ) (data : UsageData) :
    ((fun x => (track_audio_duration 60 true dk wk x).1)^[n] data).total_minutes =
      data.total_minutes + n := by
  induction n generalizing data with
  | zero => simp
  | succ m ih =>
    rw [Function.iterate_succ_apply]
    rw [ih]
    rw [track_fields 60 true dk wk data (by norm_num)]
    push_cast
    ring_nf

/-- C10 counterexample: at `K = M = 1` a single
`track_audio_duration(60, success=True)` call from the zeroed record gives
`total_minutes = 1`, not the `K*M/60 = 1/60` the spec states: each
60-second call contributes one minute, so `K*M` calls give `K*M` minutes. -/
theorem C10_counterexample :
    (track_audio_duration 60 true "2026-10-12" "2026-W41"
      defaultData).1.total_minutes ≠ ((1 * 1 : ℚ) / 60) := by
  decide

/-- C10 amended: `K` threads each making `M` calls of
`track_audio_duration(60, success=True)` — the lock serializes each
read-modify-write cycle, modelled as sequential application of the `K*M`
atomic updates in arbitrary (irrelevant: the updates commute and are
identical) order — produce `total_minutes = K*M` exactly from the zeroed
record: one minute per 60-second call, with no lost updates. -/
theorem C10_no_lost_updates (K M : ℕ) (dk wk : String) :
    ((fun x => (track_audio_duration 60 true dk wk x).1)^[K * M]
      defaultData).total_minutes = (K * M : ℕ) := by
  rw [track_iterate_total]
  simp [defaultData]

/-- C5 counterexample: from the zeroed ledger,
`track_audio_duration(600, success=True)` yields an `estimated_cost`
display of `"$0.06"` — 600 seconds are 10 minutes, and 10 × $0.006 = $0.06
— not the `"$3.60"` the spec states (which would correspond to 600
*minutes*). -/
theorem C5_counterexample :
    (track_audio_duration 600 true "2026-10-12" "2026-W41"
      defaultData).2.estimated_cost ≠ "$3.60" := by
  decide

/-- C5 amended: from the zeroed ledger, a single
`track_audio_duration(600, success=True)` call returns a snapshot whose
`estimated_cost` formats to `"$0.06"` at the fixed rate of 0.006 USD per
minute (independently of the day and week keys). -/
theorem C5_cost_display (dk wk : String) :
    (track_audio_duration 600 true dk wk defaultData).2.estimated_cost =
      "$0.06" := by
  unfold track_audio_duration
  norm_num
  simp only [format_stats]
  decide

/-- C9: loading the ledger from an unparseable storage file returns
normally (`.ok`, not a raised error), with the all-zero default record; the
corrupted content still exists, renamed aside into the backup slot, and the
storage path is re-initialized with the serialized defaults. -/
theorem C9_corrupt_recovery (raw : RawFile) (b : Option RawFile)
    (h : parseJson raw = none) :
    read_data { storage := .present raw, backup := b } =
      .ok (defaultData,
        { storage := .present (.json defaultData), backup := some raw }) ∧
    defaultData.total_minutes = 0 ∧
    defaultData.successful_minutes = 0 ∧
    defaultData.failed_attempts = 0 ∧
    defaultData.daily_aggregate = [] ∧
    defaultData.weekly_aggregate = [] := by
  refine ⟨?_, rfl, rfl, rfl, rfl, rfl⟩
  unfold read_data
  simp [h]

/-- C9 witness: recovery from a concrete unparseable file. -/
theorem C9_corrupt_recovery_witness :
    read_data { storage := .present (.garbage "not valid json"), backup := none } =
      .ok (defaultData,
        { storage := .present (.json defaultData),
          backup := some (.garbage "not valid json") }) :=
  (C9_corrupt_recovery (.garbage "not valid json") none rfl).1

/-- C2 counterexample: a captured segment whose RMS energy (50) is below
the silence floor (300) — the spec's Reject-Silence verdict — nevertheless
receives a backend call: `listen_continuously` queues all audio and
`process_audio_queue` always attempts the primary backend, so
`googleCalls = 1`, not the claimed zero backend calls. -/
theorem C2_counterexample :
    rmsLt (List.replicate 4 50) 300 = true ∧
    (process_segment none (List.replicate 4 50) (.response (.list []))
      (.ok "x")).1.googleCalls ≠ 0 := by
  decide

/-- C2 amended: Reject-quality segments (RMS below the silence floor, or
zero-crossing rate above the noise ceiling) are still queued and sent to
the primary backend (which may even append a transcript); what the RMS/ZCR
gate — which lives inside `whisper_recognize`, not in front of the
pipeline — does guarantee is that such a segment never causes a paid
secondary-backend API call and never causes a ledger mutation (for any
state of the loop-carried confidence local). -/
theorem C2_gate_protects_secondary (conf0 : Option ℚ) (xs : List ℤ)
    (g : GoogleOutcome) (api : WhisperApiResult)
    (h : rmsLt xs 300 = true ∨ zcrGt xs (3/10) = true) :
    (process_segment conf0 xs g api).1.whisperApiCalls = 0 ∧
    (process_segment conf0 xs g api).1.trackCalls = [] := by
  have hw : ∀ a : WhisperApiResult,
      (whisper_recognize xs a).apiCalled = false ∧
      (whisper_recognize xs a).trackCalls = [] := by
    intro a
    unfold whisper_recognize
    by_cases h3 : rmsLt xs 300 = true
    · simp [h3]
    · have hz : zcrGt xs (3/10) = true := h.resolve_left h3
      by_cases h5 : rmsLt xs 500 = true
      · simp [h3, h5]
      · simp [h3, h5, hz]
  rcases hw api with ⟨hA, hT⟩
  cases g with
  | response r =>
    simp only [process_segment]
    split <;> simp
  | unknownValue =>
    simp only [process_segment]
    cases ho : (whisper_recognize xs api).outcome <;>
      simp [ho, hA, hT] <;> split <;> simp
  | requestError =>
    simp only [process_segment]
    cases ho : (whisper_recognize xs api).outcome <;>
      simp [ho, hA, hT] <;> split <;> simp

/-- C2 witness: the gate guarantee at a concrete silent segment. -/
theorem C2_gate_protects_secondary_witness :
    (process_segment none (List.replicate 4 50) GoogleOutcome.unknownValue
      (.ok "x")).1.whisperApiCalls = 0 ∧
    (process_segment none (List.replicate 4 50) GoogleOutcome.unknownValue
      (.ok "x")).1.trackCalls = [] :=
  C2_gate_protects_secondary none (List.replicate 4 50) .unknownValue
    (.ok "x") (Or.inl (by decide))

/-- C8 counterexample: when the primary backend *returns* no intelligible
speech — an empty alternatives list under `show_all=True` —
`parse_google_response` yields `('', 0.0)`; the empty string is not `None`,
so the `if text is None` fallback test fails and the secondary backend is
attempted zero times, not exactly once as claimed. -/
theorem C8_counterexample :
    parse_google_response (.list []) = ("", 0) ∧
    (process_segment none (List.replicate 4 1000) (.response (.list []))
      (.ok "x")).1.whisperCalls = 0 := by
  decide

/-- C8 amended: the secondary backend is attempted exactly once when the
primary *raises* (`UnknownValueError` — could not understand audio — or
`RequestError`), which leaves `text` as `None`; when the primary instead
*returns* a response — including one with no alternatives, i.e. no
intelligible speech — the parsed text (possibly `''`) is not `None` and
the secondary backend is never attempted (for any state of the
loop-carried confidence local). -/
theorem C8_fallback_on_exception (conf0 : Option ℚ) (xs : List ℤ)
    (api : WhisperApiResult) :
    (process_segment conf0 xs .unknownValue api).1.whisperCalls = 1 ∧
    (process_segment conf0 xs .requestError api).1.whisperCalls = 1 ∧
    ∀ r : GoogleResponse,
      (process_segment conf0 xs (.response r) api).1.whisperCalls = 0 := by
  refine ⟨?_, ?_, ?_⟩
  · simp only [process_segment]
    cases ho : (whisper_recognize xs api).outcome <;>
      simp [ho] <;> split <;> simp
  · simp only [process_segment]
    cases ho : (whisper_recognize xs api).outcome <;>
      simp [ho] <;> split <;> simp
  · intro r
    simp only [process_segment]
    split <;> simp

/-- Anything appended by the Google-response branch carries the freshly
parsed transcript and confidence. -/
theorem process_segment_response_appended (conf0 : Option ℚ) (xs : List ℤ)
    (r : GoogleResponse) (api : WhisperApiResult) (p : String × Option ℚ)
    (hp : (process_segment conf0 xs (.response r) api).1.appended = some p) :
    p = ((parse_google_response r).1, some (parse_google_response r).2) := by
  simp only [process_segment] at hp
  split at hp
  · simp only [Option.some.injEq] at hp
    exact hp.symm
  · cases hp

/-- Anything appended by the fallback (Whisper) branch carries the stale
loop-carried confidence local unchanged. -/
theorem process_segment_fallback_appended (conf0 : Option ℚ) (xs : List ℤ)
    (g : GoogleOutcome) (api : WhisperApiResult) (p : String × Option ℚ)
    (hg : g = .unknownValue ∨ g = .requestError)
    (hp : (process_segment conf0 xs g api).1.appended = some p) :
    p.2 = conf0 := by
  have key : ∀ g1 : GoogleOutcome, g1 = .unknownValue ∨ g1 = .requestError →
      (process_segment conf0 xs g1 api).1.appended = some p → p.2 = conf0 := by
    intro g1 hg1 hp1
    cases g1 with
    | response r =>
      rcases hg1 with h | h <;> exact absurd h (by simp)
    | unknownValue =>
      simp only [process_segment] at hp1
      cases ho : (whisper_recognize xs api).outcome <;> simp [ho] at hp1
      split at hp1
      · simp only [Option.some.injEq] at hp1
        rw [← hp1]
      · cases hp1
    | requestError =>
      simp only [process_segment] at hp1
      cases ho : (whisper_recognize xs api).outcome <;> simp [ho] at hp1
      split at hp1
      · simp only [Option.some.injEq] at hp1
        rw [← hp1]
      · cases hp1
  exact key g hg hp

/-- The loop-carried confidence local is bound by every returned primary
response and left untouched by the exception (fallback) paths. -/
theorem process_segment_confidence_state (conf0 : Option ℚ) (xs : List ℤ)
    (api : WhisperApiResult) :
    (∀ r : GoogleResponse,
      (process_segment conf0 xs (.response r) api).2 =
        some (parse_google_response r).2) ∧
    (process_segment conf0 xs .unknownValue api).2 = conf0 ∧
    (process_segment conf0 xs .requestError api).2 = conf0 := by
  refine ⟨?_, ?_, ?_⟩
  · intro r
    simp only [process_segment]
    split <;> rfl
  · simp only [process_segment]
    cases ho : (whisper_recognize xs api).outcome <;>
      simp [ho] <;> split <;> rfl
  · simp only [process_segment]
    cases ho : (whisper_recognize xs api).outcome <;>
      simp [ho] <;> split <;> rfl

/-- C7 counterexample: confidence is not carried as a true optional.  First,
a primary response whose best alternative has no confidence score is handed
to the presentation layer with the fabricated default `some 0.5`.  Second,
the `confidence` local of `process_audio_queue` persists across loop
iterations: after a Google iteration that parsed confidence 0.9, a later
segment transcribed by the Whisper fallback is appended with the *stale*
`some 0.9` (via `locals().get('confidence', None)`), not with `none`. -/
theorem C7_counterexample :
    (process_segment none (List.replicate 4 1000)
      (.response (.list [{ transcript := some "hi", confidence := none }]))
      (.ok "x")).1.appended = some ("hi", some (1/2)) ∧
    (process_segment
      (process_segment none (List.replicate 4 1000)
        (.response
          (.list [{ transcript := some "hi", confidence := some (9/10) }]))
        (.ok "x")).2
      (List.replicate 4 1000) .unknownValue (.ok "سلام")).1.appended =
      some ("سلام", some (9/10)) := by
  decide

/-- C7 amended: when the best alternative of the primary response carries
no confidence score, `parse_google_response` substitutes the fixed default
`0.5` inside the core parse (not at the presentation boundary), and the
segment is handed on with that fabricated value.  The primary branch always
appends a freshly parsed `some` confidence; an absent (`None`) confidence
can reach the presentation layer only on the secondary-backend fallback
path, and there only while the loop-carried `confidence` local has never
been bound by a returned primary response — otherwise the fallback appends
the *stale* value of that local (`locals().get('confidence', None)`), which
every returned response re-binds and every exception path preserves. -/
theorem C7_confidence_sentinel :
    (∀ (t : String) (rest : List GoogleAlt),
      parse_google_response
        (.list ({ transcript := some t, confidence := none } :: rest)) =
        (t, 1/2)) ∧
    (∀ (conf0 : Option ℚ) (xs : List ℤ) (r : GoogleResponse)
        (api : WhisperApiResult) (p : String × Option ℚ),
      (process_segment conf0 xs (.response r) api).1.appended = some p →
        p.2 = some (parse_google_response r).2) ∧
    (∀ (conf0 : Option ℚ) (xs : List ℤ) (g : GoogleOutcome)
        (api : WhisperApiResult) (p : String × Option ℚ),
      (process_segment conf0 xs g api).1.appended = some p → p.2 = none →
        (g = .unknownValue ∨ g = .requestError) ∧ conf0 = none) ∧
    (∀ (conf0 : Option ℚ) (xs : List ℤ) (g : GoogleOutcome)
        (api : WhisperApiResult) (p : String × Option ℚ),
      (g = .unknownValue ∨ g = .requestError) →
      (process_segment conf0 xs g api).1.appended = some p →
        p.2 = conf0) ∧
    (∀ (conf0 : Option ℚ) (xs : List ℤ) (api : WhisperApiResult),
      (∀ r : GoogleResponse,
        (process_segment conf0 xs (.response r) api).2 =
          some (parse_google_response r).2) ∧
      (process_segment conf0 xs .unknownValue api).2 = conf0 ∧
      (process_segment conf0 xs .requestError api).2 = conf0) := by
  refine ⟨?_, ?_, ?_, ?_, ?_⟩
  · intro t rest
    simp [parse_google_response]
  · intro conf0 xs r api p hp
    rw [process_segment_response_appended conf0 xs r api p hp]
  · intro conf0 xs g api p hp hnone
    cases g with
    | response r =>
      exfalso
      have := process_segment_response_appended conf0 xs r api p hp
      rw [this] at hnone
      cases hnone
    | unknownValue =>
      refine ⟨Or.inl rfl, ?_⟩
      have := process_segment_fallback_appended conf0 xs _ api p
        (Or.inl rfl) hp
      rw [← this, hnone]
    | requestError =>
      refine ⟨Or.inr rfl, ?_⟩
      have := process_segment_fallback_appended conf0 xs _ api p
        (Or.inr rfl) hp
      rw [← this, hnone]
  · intro conf0 xs g api p hg hp
    exact process_segment_fallback_appended conf0 xs g api p hg hp
  · intro conf0 xs api
    exact process_segment_confidence_state conf0 xs api

/-- C7 witness: the stale-carry component applied at a concrete fallback
segment with the confidence local previously bound to 0.9. -/
theorem C7_confidence_sentinel_witness :
    ((("سلام" : String), some ((9 : ℚ)/10))).2 = some ((9 : ℚ)/10) :=
  C7_confidence_sentinel.2.2.2.1 (some ((9 : ℚ)/10)) (List.replicate 4 1000)
    .unknownValue (.ok "سلام") ("سلام", some ((9 : ℚ)/10)) (Or.inl rfl)
    (by decide)

/-- C6 counterexample: after a successful 10020-second call
(`total_minutes = 167`, unrounded cost `167 × 0.006 = 1.002`), the
unrounded internal cost exceeds the $1.00 threshold, yet
`get_cost_warning(1.0)` reports no warning — because the code parses the
cost back from the *rounded* display string `"$1.00"` and compares that,
contradicting the claim that the unrounded value is used for the
threshold comparison. -/
theorem C6_counterexample :
    (track_audio_duration 10020 true "2026-10-12" "2026-W41"
        defaultData).1.total_minutes * COST_PER_MINUTE > 1 ∧
    (get_cost_warning 1 "2026-10-12" "2026-W41"
      (track_audio_duration 10020 true "2026-10-12" "2026-W41"
        defaultData).1).1 = false := by
  decide

/-- C6 amended: `get_cost_warning` compares the threshold against the cost
*rounded to two decimal places* — the value parsed back from the display
string — not the unrounded product; the reported current cost is that same
rounded value, and the display string is the two-decimal formatting of
`total_minutes × 0.006`. -/
theorem C6_rounded_threshold (threshold : ℚ) (dk wk : String)
    (data : UsageData) (h : 0 ≤ data.total_minutes) :
    (get_cost_warning threshold dk wk data).2.1 =
      round2 (data.total_minutes * COST_PER_MINUTE) ∧
    ((get_cost_warning threshold dk wk data).1 = true ↔
      round2 (data.total_minutes * COST_PER_MINUTE) > threshold) ∧
    (get_usage_stats dk wk data).estimated_cost =
      fmtDollars (data.total_minutes * COST_PER_MINUTE) := by
  have hnn : 0 ≤ data.total_minutes * COST_PER_MINUTE :=
    mul_nonneg h (by norm_num [COST_PER_MINUTE])
  have hpf := parseDollars_fmtDollars _ hnn
  have hval : (get_cost_warning threshold dk wk data).2.1 =
      parseDollars (fmtDollars (data.total_minutes * COST_PER_MINUTE)) := rfl
  have hflag : (get_cost_warning threshold dk wk data).1 =
      decide (parseDollars
        (fmtDollars (data.total_minutes * COST_PER_MINUTE)) > threshold) := rfl
  refine ⟨hval.trans hpf, ?_, rfl⟩
  rw [hflag, hpf]
  exact decide_eq_true_iff

/-- C6 witness: the rounded-comparison characterization at the concrete
record with 167 total minutes. -/
theorem C6_rounded_threshold_witness :
    (get_cost_warning 1 "2026-10-12" "2026-W41"
      (track_audio_duration 10020 true "2026-10-12" "2026-W41"
        defaultData).1).2.1 =
    round2 ((track_audio_duration 10020 true "2026-10-12" "2026-W41"
      defaultData).1.total_minutes * COST_PER_MINUTE) :=
  (C6_rounded_threshold 1 "2026-10-12" "2026-W41"
    (track_audio_duration 10020 true "2026-10-12" "2026-W41" defaultData).1
    (by decide)).1

end SokhanNegar
